import Mathlib

/-!
Verification of the go-jwt token-state subsystem: a shallow embedding of
the token-kind taxonomy, the key derivation, the in-memory cache and the
redis (key/value) token validators, the sqlite token validator's control
flow, the Ed25519 claims validator's error surfacing, and the rabbitmq
consumer service's message application, together with theorems settling
the specification claims about them.

Go time instants are embedded as integers (Unix seconds); machine strings
as Lean strings; fallible Go functions return their error as an
`Option`/`Except` component next to the updated state.
-/

/-- Time instants (Unix seconds). -/
abbrev Instant := Int

/-- Go type `Token` (src/unnamed/part_009): a string naming the token kind. -/
abbrev GoToken := String

/-- The `RefreshToken` constant of package token. -/
def refreshTokenStr : GoToken := "refresh_token"

/-- The `AccessToken` constant of package token. -/
def accessTokenStr : GoToken := "access_token"

/-- The error values of the repository that the embedded operations can
return (package token, package claims, the cache package, and the external
cache and redis client sentinels the code matches on). -/
inductive RepoErr where
  | unexpectedTokenType
  | parentRefreshTokenNotFound
  | invalidParentRefreshTokenItem
  | invalidTokenItem
  | itemNotFound
  | redisNil
  | redisOther (msg : String)
  | parseBoolSyntax (s : String)
  deriving DecidableEq, Repr

/-- `Token.Abbreviation` (src/unnamed/part_009): "RT" for refresh tokens,
"AT" for access tokens, `ErrUnexpectedTokenType` otherwise. -/
def tokenAbbreviation (t : GoToken) : Except RepoErr String :=
  if t = refreshTokenStr then .ok "RT"
  else if t = accessTokenStr then .ok "AT"
  else .error .unexpectedTokenType

/-- Modelled from the spec: the external helper `go-strings/add.Prefixes`
(its code is not in this repository's files); per the spec's section 4.B
the derivation joins its pieces with the separator, each listed item being
prepended, followed by the separator, to the base string. -/
def gostringsAddPrefixes (base sep : String) (ps : List String) : String :=
  ps.foldr (fun p acc => p ++ sep ++ acc) base

/-- `KeySeparator` of the cache package (src/unnamed/part_013). -/
def cacheKeySeparator : String := "."

/-- `ParentRefreshTokenIDPrefix` of the cache package (src/unnamed/part_013). -/
def cacheParentRefreshTokenIDPre : String := "PRT"

/-- `TokenValidator.GetTokenKey` of the cache backend
(src/token/claims/cache/validator.go lines 58-73): abbreviation first,
then the separator and the id handed to the prefixes helper. -/
def cacheGetTokenKey (token : GoToken) (id : String) : Except RepoErr String :=
  match tokenAbbreviation token with
  | .error e => .error e
  | .ok pre => .ok (gostringsAddPrefixes pre cacheKeySeparator [id])

/-- `TokenValidator.GetParentRefreshTokenKey` of the cache backend
(src/token/claims/cache/validator.go lines 86-98). -/
def cacheGetParentRefreshTokenKey (id : String) : String :=
  gostringsAddPrefixes cacheParentRefreshTokenIDPre cacheKeySeparator [id]

/-- `KeySeparator` of the redis package (src/token/claims/redis/constants.go). -/
def redisKeySeparator : String := "."

/-- `ParentRefreshTokenIDPrefix` of the redis package
(src/token/claims/redis/constants.go). -/
def redisParentRefreshTokenIDPre : String := "prt"

/-- `TokenValidator.GetKey` of the redis backend
(src/token/claims/redis/validator.go lines 66-85): note the id is the base
argument and the abbreviation the listed item, the mirror image of the
cache backend's call. -/
def redisGetKey (token : GoToken) (id : String) : Except RepoErr String :=
  match tokenAbbreviation token with
  | .error e => .error e
  | .ok pre => .ok (gostringsAddPrefixes id redisKeySeparator [pre])

/-- `TokenValidator.GetParentRefreshTokenKey` of the redis backend
(src/token/claims/redis/validator.go lines 97-109). -/
def redisGetParentRefreshTokenKey (id : String) : String :=
  gostringsAddPrefixes id redisKeySeparator [redisParentRefreshTokenIDPre]

/-- A value stored in the timed cache: the code stores booleans for token
records and strings (the child access token id) for parent links. -/
inductive CacheValue where
  | boolVal (b : Bool)
  | strVal (s : String)
  deriving DecidableEq, Repr

/-- Modelled from the spec: a `TimedItem` of the external
`go-cache/timed` library (its code is not in this repository's files): a
value together with its expiration instant. -/
structure TimedItem where
  value : CacheValue
  expiresAt : Instant
  deriving DecidableEq, Repr

/-- Modelled from the spec: the timed cache's state, a mapping from derived
key to stored item; expired entries stay present until swept lazily, so a
`Get` returns them and callers check expiry themselves (the validator code
does exactly that). -/
abbrev CacheState := String → Option TimedItem

/-- The empty timed cache. -/
def emptyCache : CacheState := fun _ => none

/-- Modelled from the spec: `TimedCache.Set` binds a key to an item. -/
def cacheSetKey (s : CacheState) (k : String) (item : TimedItem) : CacheState :=
  fun k2 => if k2 = k then some item else s k2

/-- Modelled from the spec: `TimedItem.HasExpired` compares the item's
expiration instant with the current time (`time.Now().After(expiresAt)`). -/
def timedItemHasExpired (now : Instant) (item : TimedItem) : Bool :=
  item.expiresAt < now

/-- `TokenValidator.AddRefreshToken` of the cache backend
(src/token/claims/cache/validator.go lines 112-133): derive the refresh
key and bind it to a live boolean item carrying the expiry. -/
def cacheAddRefreshToken (s : CacheState) (id : String) (expiresAt : Instant) :
    Option RepoErr × CacheState :=
  match cacheGetTokenKey refreshTokenStr id with
  | .error e => (some e, s)
  | .ok key => (none, cacheSetKey s key { value := .boolVal true, expiresAt := expiresAt })

/-- `TokenValidator.AddAccessToken` of the cache backend
(src/token/claims/cache/validator.go lines 147-212): requires the parent
refresh record to be in the cache (else `ErrParentRefreshTokenNotFound`);
an expired parent returns nil without storing anything; otherwise the
access record and the parent link are stored. -/
def cacheAddAccessToken (s : CacheState) (now : Instant) (id parentRefreshTokenID : String)
    (expiresAt : Instant) : Option RepoErr × CacheState :=
  match cacheGetTokenKey refreshTokenStr parentRefreshTokenID with
  | .error e => (some e, s)
  | .ok refreshTokenKey =>
    match s refreshTokenKey with
    | none => (some .parentRefreshTokenNotFound, s)
    | some refreshTokenItem =>
      if timedItemHasExpired now refreshTokenItem then (none, s)
      else
        match cacheGetTokenKey accessTokenStr id with
        | .error e => (some e, s)
        | .ok key =>
          let s1 := cacheSetKey s key { value := .boolVal true, expiresAt := expiresAt }
          let parentKey := cacheGetParentRefreshTokenKey parentRefreshTokenID
          (none, cacheSetKey s1 parentKey { value := .strVal id, expiresAt := expiresAt })

/-- `TokenValidator.RevokeToken` of the cache backend
(src/token/claims/cache/validator.go lines 225-292): flip the stored
item's value to false in place (the expiry is untouched); for a refresh
token, follow the parent link and revoke the named access token too.  The
source's recursive call is inlined here: it always runs with the access
kind, whose branch does not recurse. -/
def cacheRevokeToken (s : CacheState) (token : GoToken) (id : String) :
    Option RepoErr × CacheState :=
  match cacheGetTokenKey token id with
  | .error e => (some e, s)
  | .ok key =>
    match s key with
    | none => (some .itemNotFound, s)
    | some item =>
      let s1 := cacheSetKey s key { value := .boolVal false, expiresAt := item.expiresAt }
      if token ≠ refreshTokenStr then (none, s1)
      else
        let parentKey := cacheGetParentRefreshTokenKey id
        match s1 parentKey with
        | none => (none, s1)
        | some parentItem =>
          match parentItem.value with
          | .boolVal _ => (some .invalidParentRefreshTokenItem, s1)
          | .strVal accessTokenID =>
            match cacheGetTokenKey accessTokenStr accessTokenID with
            | .error e => (some e, s1)
            | .ok accessKey =>
              match s1 accessKey with
              | none => (some .itemNotFound, s1)
              | some accessItem =>
                (none, cacheSetKey s1 accessKey
                  { value := .boolVal false, expiresAt := accessItem.expiresAt })

/-- `TokenValidator.IsTokenValid` of the cache backend
(src/token/claims/cache/validator.go lines 306-345): a missing record is
reported as `ErrItemNotFound`, an expired one as invalid with no error,
and otherwise the stored boolean is returned. -/
def cacheIsTokenValid (s : CacheState) (now : Instant) (token : GoToken) (id : String) :
    Bool × Option RepoErr :=
  match cacheGetTokenKey token id with
  | .error e => (false, some e)
  | .ok key =>
    match s key with
    | none => (false, some .itemNotFound)
    | some timedItem =>
      if timedItemHasExpired now timedItem then (false, none)
      else
        match timedItem.value with
        | .boolVal b => (b, none)
        | .strVal _ => (false, some .invalidTokenItem)

/-- A value held by the redis server under one key: the reply string and
an optional absolute expiration instant (none = the key never expires). -/
structure RedisVal where
  value : String
  expiresAt : Option Instant
  deriving DecidableEq, Repr

/-- Modelled from the spec: the redis server's keyspace as seen through
the go-redis client (the client's code is not in this repository's
files). -/
abbrev RedisState := String → Option RedisVal

/-- The empty redis keyspace. -/
def emptyRedis : RedisState := fun _ => none

/-- The client-level errors the validator code matches on: the `redis.Nil`
sentinel for a missing key, and any other client failure. -/
inductive RedisErr where
  | nilReply
  | otherErr (msg : String)
  deriving DecidableEq, Repr

/-- How a redis client error surfaces through the validator's error type. -/
def redisErrToRepo (e : RedisErr) : RepoErr :=
  match e with
  | .nilReply => .redisNil
  | .otherErr msg => .redisOther msg

/-- A key is live when it has no expiry or its expiry is still ahead;
redis deletes expired keys transparently, so every read goes through this
predicate. -/
def redisLive (now : Instant) (v : RedisVal) : Bool :=
  match v.expiresAt with
  | none => true
  | some e => now < e

/-- Write one binding of the keyspace. -/
def redisWrite (s : RedisState) (k : String) (v : RedisVal) : RedisState :=
  fun k2 => if k2 = k then some v else s k2

/-- Modelled from the spec: the client's `Get`: the value of a live key,
`redis.Nil` for a missing or expired one. -/
def redisGetCmd (s : RedisState) (now : Instant) (k : String) : Except RedisErr String :=
  match s k with
  | none => .error .nilReply
  | some v => if redisLive now v then .ok v.value else .error .nilReply

/-- Modelled from the spec: the client's `TTL`: -2 for a missing or
expired key, -1 for a key with no expiry, else the remaining time. -/
def redisTTLCmd (s : RedisState) (now : Instant) (k : String) : Int :=
  match s k with
  | none => -2
  | some v =>
    if redisLive now v then
      match v.expiresAt with
      | none => -1
      | some e => e - now
    else -2

/-- Modelled from the spec: the client's `Set` with a relative expiration
(0 means no expiry); go-redis sends a Go boolean as the string "1" or "0". -/
def redisSetCmd (s : RedisState) (now : Instant) (k val : String) (ttl : Int) : RedisState :=
  redisWrite s k { value := val, expiresAt := if ttl = 0 then none else some (now + ttl) }

/-- Modelled from the spec: the client's `ExpireAt`: set the absolute
expiry of a live key; a missing or expired key is left alone. -/
def redisExpireAtCmd (s : RedisState) (now : Instant) (k : String) (t : Instant) : RedisState :=
  match s k with
  | none => s
  | some v => if redisLive now v then redisWrite s k { value := v.value, expiresAt := some t } else s

/-- How go-redis serializes a Go boolean argument. -/
def boolToRedisArg (b : Bool) : String :=
  if b then "1" else "0"

/-- `TokenValidator.setKey` of the redis backend
(src/token/claims/redis/validator.go lines 123-150): `Set` the boolean
with no expiry, then `ExpireAt` the absolute expiration instant. -/
def redisSetKey (s : RedisState) (now : Instant) (key : String) (isValid : Bool)
    (expiresAt : Instant) : RedisState :=
  redisExpireAtCmd (redisSetCmd s now key (boolToRedisArg isValid) 0) now key expiresAt

/-- `TokenValidator.AddRefreshToken` of the redis backend
(src/token/claims/redis/validator.go lines 162-178). -/
def redisAddRefreshToken (s : RedisState) (now : Instant) (id : String) (expiresAt : Instant) :
    Option RepoErr × RedisState :=
  match redisGetKey refreshTokenStr id with
  | .error e => (some e, s)
  | .ok key => (none, redisSetKey s now key true expiresAt)

/-- `TokenValidator.AddAccessToken` of the redis backend
(src/token/claims/redis/validator.go lines 192-226): store the parent
link with `time.Until(expiresAt)` as relative TTL, then the access key. -/
def redisAddAccessToken (s : RedisState) (now : Instant) (id parentRefreshTokenID : String)
    (expiresAt : Instant) : Option RepoErr × RedisState :=
  match redisGetKey accessTokenStr id with
  | .error e => (some e, s)
  | .ok key =>
    let parentRefreshTokenKey := redisGetParentRefreshTokenKey parentRefreshTokenID
    let s1 := redisSetCmd s now parentRefreshTokenKey id (expiresAt - now)
    (none, redisSetKey s1 now key true expiresAt)

/-- `TokenValidator.RevokeToken` of the redis backend
(src/token/claims/redis/validator.go lines 239-317): read the remaining
TTL, rewrite the key as revoked while restoring that TTL; unless the kind
is the access kind, follow the parent link (a missing link surfaces the
client error) and do the same TTL-preserving update on the access key. -/
def redisRevokeToken (s : RedisState) (now : Instant) (token : GoToken) (id : String) :
    Option RepoErr × RedisState :=
  match redisGetKey token id with
  | .error e => (some e, s)
  | .ok key =>
    let ttl := redisTTLCmd s now key
    let s1 := redisSetKey s now key false (now + ttl)
    if token = accessTokenStr then (none, s1)
    else
      let parentRefreshTokenKey := redisGetParentRefreshTokenKey id
      match redisGetCmd s1 now parentRefreshTokenKey with
      | .error e => (some (redisErrToRepo e), s1)
      | .ok accessTokenID =>
        match redisGetKey accessTokenStr accessTokenID with
        | .error e => (some e, s1)
        | .ok accessTokenKey =>
          let accessTokenTTL := redisTTLCmd s1 now accessTokenKey
          (none, redisSetKey s1 now accessTokenKey false (now + accessTokenTTL))

/-- Go's `strconv.ParseBool`, restricted to its documented accepted forms. -/
def strconvParseBool (str : String) : Except RepoErr Bool :=
  if str = "1" ∨ str = "t" ∨ str = "T" ∨ str = "true" ∨ str = "TRUE" ∨ str = "True" then
    .ok true
  else if str = "0" ∨ str = "f" ∨ str = "F" ∨ str = "false" ∨ str = "FALSE" ∨ str = "False" then
    .ok false
  else .error (.parseBoolSyntax str)

/-- The tail of `TokenValidator.IsTokenValid` of the redis backend
(src/token/claims/redis/validator.go lines 346-365), shared between the
keyspace model and the error-propagation statements: what the method does
with the outcome of the client's `Get` on the derived key: `redis.Nil`
becomes false with no error, any other client error propagates, and a
retrieved value is parsed as a boolean. -/
def redisIsTokenValidFromGet (getResult : Except RedisErr String) : Bool × Option RepoErr :=
  match getResult with
  | .error .nilReply => (false, none)
  | .error (.otherErr msg) => (false, some (.redisOther msg))
  | .ok isValid =>
    match strconvParseBool isValid with
    | .error e => (false, some e)
    | .ok parsed => (parsed, none)

/-- `TokenValidator.IsTokenValid` of the redis backend
(src/token/claims/redis/validator.go lines 331-366) over the keyspace
model. -/
def redisIsTokenValid (s : RedisState) (now : Instant) (token : GoToken) (id : String) :
    Bool × Option RepoErr :=
  match redisGetKey token id with
  | .error e => (false, some e)
  | .ok key => redisIsTokenValidFromGet (redisGetCmd s now key)

/-- `TokenPair` of package rabbitmq (src/rabbitmq/types.go, current
variant): one issued refresh/access pair with expiries. -/
structure TokenPair where
  RefreshTokenID : String
  RefreshTokenExpiresAt : Instant
  AccessTokenID : String
  AccessTokenExpiresAt : Instant
  deriving DecidableEq, Repr

/-- `TokensMessage` of package rabbitmq (src/rabbitmq/types.go, current
variant): issued pairs plus revoked refresh and access token ids. -/
structure TokensMessage where
  IssuedTokenPairs : List TokenPair
  RevokedRefreshTokensID : List String
  RevokedAccessTokensID : List String
  deriving DecidableEq, Repr

/-- One store-backend call the consumer service can make. -/
inductive StoreOp where
  | addRefreshToken (id : String) (expiresAt : Instant)
  | addAccessToken (id parentRefreshTokenID : String) (expiresAt : Instant)
  | revokeToken (token : GoToken) (id : String)
  deriving DecidableEq, Repr

/-- The sequence of store calls `DefaultService.Start` makes for one
message (src/rabbitmq/consumer/service.go lines 126-178): for each issued
pair an add-refresh then an add-access; then a revoke per revoked refresh
id; then the revoked access ids are iterated twice, a revoke per id each
time (the source has two identical loops over `RevokedAccessTokensID`). -/
def processTokensMessage (msg : TokensMessage) : List StoreOp :=
  (msg.IssuedTokenPairs.flatMap fun p =>
    [.addRefreshToken p.RefreshTokenID p.RefreshTokenExpiresAt,
     .addAccessToken p.AccessTokenID p.RefreshTokenID p.AccessTokenExpiresAt])
  ++ msg.RevokedRefreshTokensID.map (StoreOp.revokeToken refreshTokenStr)
  ++ msg.RevokedAccessTokensID.map (StoreOp.revokeToken accessTokenStr)
  ++ msg.RevokedAccessTokensID.map (StoreOp.revokeToken accessTokenStr)

/-- Run the service's store calls in order against per-call outcomes,
stopping at the first error as the source's early returns do; the result
is the list of calls actually made and the error returned, if any. -/
def runStoreOps (result : StoreOp → Option RepoErr) :
    List StoreOp → List StoreOp × Option RepoErr
  | [] => ([], none)
  | op :: rest =>
    match result op with
    | some e => ([op], some e)
    | none =>
      let r := runStoreOps result rest
      (op :: r.1, r.2)

/-- `DefaultService.Start`'s handling of one received message: the calls
of `processTokensMessage` with first-error abort. -/
def handleTokensMessage (result : StoreOp → Option RepoErr) (msg : TokensMessage) :
    List StoreOp × Option RepoErr :=
  runStoreOps result (processTokensMessage msg)

/-- The classes of golang-jwt parse errors the validator distinguishes
with `errors.Is` (src/unnamed/part_006 lines 95-104). -/
inductive JwtErrKind where
  | unexpectedSigningMethod
  | signatureInvalid
  | tokenExpired
  | tokenNotValidYet
  | tokenMalformed
  | otherJwtErr (msg : String)
  deriving DecidableEq, Repr

/-- The go-flags mode values. -/
inductive FlagMode where
  | debugMode
  | prodMode
  deriving DecidableEq, Repr

/-- What `Ed25519Validator.GetToken` returns to its caller: the parsed
token, the raw parse error unchanged, or the opaque `ErrInvalidToken`. -/
inductive ValidatorResult where
  | token
  | rawErr (e : JwtErrKind)
  | invalidTokenErr
  deriving DecidableEq, Repr

/-- `Ed25519Validator.GetToken`'s error surfacing (src/unnamed/part_006
lines 77-112), abstracted over the parse outcome: `parseErr` is the error
class `jwt.Parse` returned (none on success) and `tokenValid` the parsed
token's `Valid` field.  In debug mode an error is returned raw.
Otherwise the source's `switch` lists five `errors.Is` cases of which only
the `jwt.ErrTokenMalformed` case has a body (`return nil, err`): Go does
not fall through, so the first four matching cases leave the switch with
nothing returned and control reaches the `!token.Valid` check, which
yields `ErrInvalidToken`; the default case yields `ErrInvalidToken`. -/
def ed25519GetToken (mode : Option FlagMode) (parseErr : Option JwtErrKind)
    (tokenValid : Bool) : ValidatorResult :=
  match parseErr with
  | some e =>
    if mode = some .debugMode then .rawErr e
    else
      match e with
      | .tokenMalformed => .rawErr e
      | .unexpectedSigningMethod | .signatureInvalid | .tokenExpired | .tokenNotValidYet =>
        if tokenValid then .token else .invalidTokenErr
      | .otherJwtErr _ => .invalidTokenErr
  | none => if tokenValid then .token else .invalidTokenErr

/-- Errors of the sqlite validator's collaborators: a failure obtaining
the database connection, or a failure executing a statement. -/
inductive SqlErr where
  | dbErr (msg : String)
  | execErr (msg : String)
  deriving DecidableEq, Repr

/-- `TokenValidator.AddRefreshToken` of the sqlite backend
(src/token/claims/sqlite/validator.go lines 159-187), abstracted over the
outcomes of its two collaborator calls: a `DB()` error is returned, but an
`Exec` error is only logged — both `Exec` branches fall through to the
unconditional `return nil`. -/
def sqliteAddRefreshToken (dbResult : Except SqlErr Unit) (execResult : Except SqlErr Unit) :
    Option SqlErr :=
  match dbResult with
  | .error e => some e
  | .ok _ =>
    match execResult with
    | .error _ => none
    | .ok _ => none

/-- `TokenValidator.RevokeAccessToken` of the sqlite backend
(src/token/claims/sqlite/validator.go lines 315-339), abstracted the same
way: the `Exec` error of the delete statement is only logged and nil is
returned. -/
def sqliteRevokeAccessToken (dbResult : Except SqlErr Unit) (execResult : Except SqlErr Unit) :
    Option SqlErr :=
  match dbResult with
  | .error e => some e
  | .ok _ =>
    match execResult with
    | .error _ => none
    | .ok _ => none

/-- `TokenValidator.DB` of the sqlite backend
(src/token/claims/sqlite/validator.go lines 128-147) with explicit
unfolding fuel: the body takes the mutex and immediately calls `t.DB()` —
itself — so each unfolding step only recurses, and no amount of fuel
produces a connection or an error (the running code, in fact, deadlocks
on its own mutex at the first recursive call). -/
def sqliteDBFuel : Nat → Option (Except SqlErr Unit)
  | 0 => none
  | n + 1 => sqliteDBFuel n

/-- The access token id a cache refresh revocation cascades to: the
string stored under the parent link key, when one is stored. -/
def cacheCascadeAccessId (s : CacheState) (id : String) : Option String :=
  match s (cacheGetParentRefreshTokenKey id) with
  | some item =>
    match item.value with
    | .strVal aid => some aid
    | .boolVal _ => none
  | none => none

/-- The access token id a redis refresh revocation cascades to: the live
value of the parent link key, when the key is live. -/
def redisCascadeAccessId (s : RedisState) (now : Instant) (id : String) : Option String :=
  match redisGetCmd s now (redisGetParentRefreshTokenKey id) with
  | .ok aid => some aid
  | .error _ => none

/-- A cache reached by real operations, used to falsify claim C3 as
stated: at time 0, refresh r1 (expiring at 5) and r2 (expiring at 100)
are added, access b1 is added under r1 and access a1 under r2. -/
def c3CacheScenarioState : CacheState :=
  (cacheAddAccessToken
    (cacheAddAccessToken
      (cacheAddRefreshToken (cacheAddRefreshToken emptyCache "r1" 5).2 "r2" 100).2
      0 "b1" "r1" 50).2
    0 "a1" "r2" 100).2

/-- A cache holding one refresh record r1 that expires at instant 5, used
to falsify claim C4 as stated at time 10. -/
def c4CacheScenarioState : CacheState :=
  (cacheAddRefreshToken emptyCache "r1" 5).2

/-- Equality of embedded fallible results is decidable, so concrete runs
can be checked by evaluation. -/
instance exceptDecEq {e a : Type} [DecidableEq e] [DecidableEq a] :
    DecidableEq (Except e a) := fun x y =>
  match x, y with
  | .ok v, .ok w =>
    if h : v = w then .isTrue (by rw [h]) else .isFalse (fun q => h (Except.ok.inj q))
  | .error v, .error w =>
    if h : v = w then .isTrue (by rw [h]) else .isFalse (fun q => h (Except.error.inj q))
  | .ok _, .error _ => .isFalse (fun q => Except.noConfusion q)
  | .error _, .ok _ => .isFalse (fun q => Except.noConfusion q)

/-! ### Auxiliary facts about the derived key strings -/

theorem stringDataInj {a b : String} (h : a.data = b.data) : a = b :=
  congrArg String.mk h

theorem stringDataAppend (a b : String) : (a ++ b).data = a.data ++ b.data := rfl

theorem stringAppendLeftCancel {x a b : String} (h : x ++ a = x ++ b) : a = b := by
  have h2 := congrArg String.data h
  rw [stringDataAppend, stringDataAppend] at h2
  exact stringDataInj (List.append_cancel_left h2)

theorem stringAppendRightCancel {x a b : String} (h : a ++ x = b ++ x) : a = b := by
  have h2 := congrArg String.data h
  rw [stringDataAppend, stringDataAppend] at h2
  exact stringDataInj (List.append_cancel_right h2)

theorem dataCacheKeyRT (id : String) :
    (id ++ "." ++ "RT").data = id.data ++ ['.', 'R', 'T'] := by
  rw [stringDataAppend, stringDataAppend, List.append_assoc]; rfl

theorem dataCacheKeyAT (id : String) :
    (id ++ "." ++ "AT").data = id.data ++ ['.', 'A', 'T'] := by
  rw [stringDataAppend, stringDataAppend, List.append_assoc]; rfl

theorem dataCacheKeyPRT (id : String) :
    (id ++ "." ++ "PRT").data = id.data ++ ['.', 'P', 'R', 'T'] := by
  rw [stringDataAppend, stringDataAppend, List.append_assoc]; rfl

theorem dataRedisKeyRT (id : String) :
    ("RT" ++ "." ++ id).data = 'R' :: 'T' :: '.' :: id.data := by
  rw [stringDataAppend, stringDataAppend]; rfl

theorem dataRedisKeyAT (id : String) :
    ("AT" ++ "." ++ id).data = 'A' :: 'T' :: '.' :: id.data := by
  rw [stringDataAppend, stringDataAppend]; rfl

theorem dataRedisKeyPrt (id : String) :
    ("prt" ++ "." ++ id).data = 'p' :: 'r' :: 't' :: '.' :: id.data := by
  rw [stringDataAppend, stringDataAppend]; rfl

theorem listNeRtAt (r s : List Char) : r ++ ['.', 'R', 'T'] ≠ s ++ ['.', 'A', 'T'] := by
  intro h
  have h2 := (List.append_inj' h rfl).2
  simp at h2

theorem revCharsAT (r : List Char) :
    (r ++ ['.', 'A', 'T']).reverse = 'T' :: 'A' :: '.' :: r.reverse := by
  rw [List.reverse_append]; rfl

theorem revCharsPRT (r : List Char) :
    (r ++ ['.', 'P', 'R', 'T']).reverse = 'T' :: 'R' :: 'P' :: '.' :: r.reverse := by
  rw [List.reverse_append]; rfl

theorem listNeAtPrt (a r : List Char) : a ++ ['.', 'A', 'T'] ≠ r ++ ['.', 'P', 'R', 'T'] := by
  intro h
  have h2 := congrArg List.reverse h
  rw [revCharsAT, revCharsPRT] at h2
  injection h2 with h3 h4
  injection h4 with h5 h6
  exact absurd h5 (by decide)

theorem cacheKeyNeRtAt (r a : String) : r ++ "." ++ "RT" ≠ a ++ "." ++ "AT" := by
  intro h
  have h2 := congrArg String.data h
  rw [dataCacheKeyRT, dataCacheKeyAT] at h2
  exact listNeRtAt _ _ h2

theorem cacheKeyNeAtPrt (a r : String) : a ++ "." ++ "AT" ≠ r ++ "." ++ "PRT" := by
  intro h
  have h2 := congrArg String.data h
  rw [dataCacheKeyAT, dataCacheKeyPRT] at h2
  exact listNeAtPrt _ _ h2

theorem cacheKeyNePrtRtSame (r : String) : r ++ "." ++ "PRT" ≠ r ++ "." ++ "RT" := by
  intro h
  have h2 : ("PRT" : String) = "RT" := stringAppendLeftCancel h
  exact absurd h2 (by decide)

theorem redisKeyNeRtAt (r a : String) : "RT" ++ "." ++ r ≠ "AT" ++ "." ++ a := by
  intro h
  have h2 := congrArg String.data h
  rw [dataRedisKeyRT, dataRedisKeyAT] at h2
  injection h2 with h3 h4
  exact absurd h3 (by decide)

theorem redisKeyNePrtRt (r a : String) : "prt" ++ "." ++ r ≠ "RT" ++ "." ++ a := by
  intro h
  have h2 := congrArg String.data h
  rw [dataRedisKeyPrt, dataRedisKeyRT] at h2
  injection h2 with h3 h4
  exact absurd h3 (by decide)

theorem redisKeyNePrtAt (r a : String) : "prt" ++ "." ++ r ≠ "AT" ++ "." ++ a := by
  intro h
  have h2 := congrArg String.data h
  rw [dataRedisKeyPrt, dataRedisKeyAT] at h2
  injection h2 with h3 h4
  exact absurd h3 (by decide)

/-! ### The derived keys, computed -/

theorem cacheGetTokenKeyRefresh (id : String) :
    cacheGetTokenKey refreshTokenStr id = .ok (id ++ "." ++ "RT") := rfl

theorem cacheGetTokenKeyAccess (id : String) :
    cacheGetTokenKey accessTokenStr id = .ok (id ++ "." ++ "AT") := rfl

theorem cacheParentKeyEq (id : String) :
    cacheGetParentRefreshTokenKey id = id ++ "." ++ "PRT" := rfl

theorem redisGetKeyRefresh (id : String) :
    redisGetKey refreshTokenStr id = .ok ("RT" ++ "." ++ id) := rfl

theorem redisGetKeyAccess (id : String) :
    redisGetKey accessTokenStr id = .ok ("AT" ++ "." ++ id) := rfl

theorem redisParentKeyEq (id : String) :
    redisGetParentRefreshTokenKey id = "prt" ++ "." ++ id := rfl

/-! ### Evaluation of the state-update primitives -/

theorem cacheSetKeySame (s : CacheState) (k : String) (item : TimedItem) :
    cacheSetKey s k item k = some item := by
  simp [cacheSetKey]

theorem cacheSetKeyOther (s : CacheState) (k : String) (item : TimedItem) (k2 : String)
    (h : k2 ≠ k) : cacheSetKey s k item k2 = s k2 := by
  simp [cacheSetKey, h]

theorem redisSetKeySame (s : RedisState) (now : Instant) (k : String) (b : Bool) (e : Instant) :
    redisSetKey s now k b e k = some { value := boolToRedisArg b, expiresAt := some e } := by
  simp [redisSetKey, redisExpireAtCmd, redisSetCmd, redisWrite, redisLive]

theorem redisSetKeyOther (s : RedisState) (now : Instant) (k : String) (b : Bool) (e : Instant)
    (k2 : String) (h : k2 ≠ k) : redisSetKey s now k b e k2 = s k2 := by
  simp [redisSetKey, redisExpireAtCmd, redisSetCmd, redisWrite, redisLive, h]

theorem redisSetCmdOther (s : RedisState) (now : Instant) (k val : String) (ttl : Int)
    (k2 : String) (h : k2 ≠ k) : redisSetCmd s now k val ttl k2 = s k2 := by
  simp [redisSetCmd, redisWrite, h]

/-! ### Claim theorems -/

/-- C1: evaluation of the Ed25519 validator's error surfacing at the
failing input. In prod mode a parse failure caused by
`jwt.ErrSignatureInvalid` (correct Ed25519 header, tampered signature, so
the parsed token is not valid) is NOT returned unchanged: the matching
`switch` case has an empty body, Go does not fall through, and control
reaches the `!token.Valid` check, which returns the opaque
`ErrInvalidToken`. The expired cause collapses the same way; only the
malformed cause is returned raw; unknown causes collapse as specified;
debug mode returns every raw cause unchanged. -/
theorem ed25519ProdCollapsesSignatureInvalid :
    ed25519GetToken (some .prodMode) (some .signatureInvalid) false = .invalidTokenErr
    ∧ ed25519GetToken (some .prodMode) (some .signatureInvalid) false ≠ .rawErr .signatureInvalid
    ∧ ed25519GetToken (some .prodMode) (some .tokenExpired) false = .invalidTokenErr
    ∧ ed25519GetToken (some .prodMode) (some .unexpectedSigningMethod) false = .invalidTokenErr
    ∧ ed25519GetToken (some .prodMode) (some .tokenNotValidYet) false = .invalidTokenErr
    ∧ ed25519GetToken (some .prodMode) (some .tokenMalformed) false = .rawErr .tokenMalformed
    ∧ ed25519GetToken (some .prodMode) (some (.otherJwtErr "keyfunc error")) false = .invalidTokenErr
    ∧ ed25519GetToken (some .debugMode) (some .signatureInvalid) false = .rawErr .signatureInvalid := by
  decide

/-- C2: evaluation of the consumer service's store calls for a message
with one issued pair, one revoked refresh id and one revoked access id:
the issued records are applied first, then the refresh revocation, but
the revoked access id is revoked TWICE (the source iterates
`RevokedAccessTokensID` in two identical loops), not exactly once as the
claim states. -/
theorem serviceRevokesAccessTwice :
    processTokensMessage
        { IssuedTokenPairs := [{ RefreshTokenID := "r1", RefreshTokenExpiresAt := 50,
                                 AccessTokenID := "a1", AccessTokenExpiresAt := 20 }],
          RevokedRefreshTokensID := ["r2"],
          RevokedAccessTokensID := ["a2"] }
      = [.addRefreshToken "r1" 50, .addAccessToken "a1" "r1" 20,
         .revokeToken refreshTokenStr "r2",
         .revokeToken accessTokenStr "a2", .revokeToken accessTokenStr "a2"] := by
  rfl

/-- C2 auxiliary: the applier stops at the first failing store call and
returns its error, having performed exactly the calls up to and
including the failing one. -/
theorem serviceStopsAtFirstError (result : StoreOp → Option RepoErr) (op : StoreOp)
    (rest : List StoreOp) (e : RepoErr) (h : result op = some e) :
    runStoreOps result (op :: rest) = ([op], some e) := by
  simp [runStoreOps, h]

/-- C6: evaluation of the sqlite mutations at a failing database call: an
error from `db.Exec` during `AddRefreshToken` or `RevokeAccessToken` is
only logged and the methods return nil, not the error — while an error
obtaining the connection is propagated. -/
theorem sqliteMutationSwallowsExecError :
    sqliteAddRefreshToken (.ok ()) (.error (.execErr "constraint failed")) = none
    ∧ sqliteRevokeAccessToken (.ok ()) (.error (.execErr "database is locked")) = none
    ∧ sqliteAddRefreshToken (.error (.dbErr "cannot open")) (.ok ())
        = some (.dbErr "cannot open") := by
  decide

/-- C10: no amount of unfolding fuel makes the sqlite validator's `DB`
helper produce a connection or an error: its body calls itself, so the
real method never terminates (and in fact deadlocks on its own mutex),
and every store operation that calls it never completes. -/
theorem sqliteDBNeverReturns (n : Nat) : sqliteDBFuel n = none := by
  induction n with
  | zero => rfl
  | succ n ih => exact ih

/-- C10 witness: the fuelled helper at a concrete depth. -/
theorem sqliteDBNeverReturnsWitness : sqliteDBFuel 97 = none :=
  sqliteDBNeverReturns 97

/-- C3 counterexample: in the reachable cache `c3CacheScenarioState`, at
time 10 the parent refresh r1 has expired, so `AddAccessToken a1 r1 100`
returns success (with the future expiry 100) while storing nothing; the
subsequent `RevokeToken Refresh r1` also succeeds, cascading through the
stale parent link to b1; yet `IsTokenValid Access a1` returns true,
because the a1 record stored earlier under parent r2 is untouched. -/
theorem cacheCascadeRevokeCounterexample :
    (cacheAddAccessToken c3CacheScenarioState 10 "a1" "r1" 100).1 = none
    ∧ (cacheRevokeToken (cacheAddAccessToken c3CacheScenarioState 10 "a1" "r1" 100).2
        refreshTokenStr "r1").1 = none
    ∧ (cacheIsTokenValid
        (cacheRevokeToken (cacheAddAccessToken c3CacheScenarioState 10 "a1" "r1" 100).2
          refreshTokenStr "r1").2
        10 accessTokenStr "a1").1 = true := by
  decide

/-- C4 counterexample: in the cache holding only the refresh record r1
expired since instant 5, at time 10 `AddAccessToken a1 r1 100` returns
success — a successful add of (Access, a1, 100) with the expiry strictly
in the future — but stores nothing, and `IsTokenValid Access a1`
immediately afterwards returns false together with `ErrItemNotFound`. -/
theorem cacheAddSuccessNotValidCounterexample :
    (cacheAddAccessToken c4CacheScenarioState 10 "a1" "r1" 100).1 = none
    ∧ cacheIsTokenValid (cacheAddAccessToken c4CacheScenarioState 10 "a1" "r1" 100).2
        10 accessTokenStr "a1" = (false, some .itemNotFound) := by
  decide

/-- C5 counterexample: on the in-memory cache backend, `IsTokenValid` for
an id with no stored record returns the error `gocache.ErrItemNotFound`,
not the claimed error-free false. -/
theorem cacheIsTokenValidNotFoundError :
    cacheIsTokenValid emptyCache 0 refreshTokenStr "nothere" = (false, some .itemNotFound)
    ∧ (cacheIsTokenValid emptyCache 0 refreshTokenStr "nothere").2 ≠ none := by
  decide

/-- C7 counterexample: the redis backend derives `RT.id1`, not the
claimed `id1.RT`, for the refresh kind: its `GetKey` passes the id as the
base and the abbreviation as the listed item, the mirror image of the
cache backend's call. -/
theorem redisKeyLayoutCounterexample :
    redisGetKey refreshTokenStr "id1" = .ok ("RT" ++ "." ++ "id1")
    ∧ redisGetKey refreshTokenStr "id1" ≠ .ok ("id1" ++ "." ++ "RT") := by
  decide

/-- C9: the cache backend's `AddAccessToken` gates on the parent refresh
record: with no record under the parent refresh key it returns
`ErrParentRefreshTokenNotFound` and leaves the cache unchanged, and with
a stored but expired parent it returns success while storing neither the
access record nor the parent link (the cache is unchanged). -/
theorem cacheAddAccessTokenParentGate (s : CacheState) (now : Instant)
    (id parentId : String) (t : Instant) :
    (s (parentId ++ "." ++ "RT") = none →
      cacheAddAccessToken s now id parentId t = (some .parentRefreshTokenNotFound, s))
    ∧ (∀ item, s (parentId ++ "." ++ "RT") = some item →
        timedItemHasExpired now item = true →
        cacheAddAccessToken s now id parentId t = (none, s)) := by
  constructor
  · intro h
    simp [cacheAddAccessToken, cacheGetTokenKeyRefresh, h]
  · intro item h hexp
    simp [cacheAddAccessToken, cacheGetTokenKeyRefresh, h, hexp]

/-- C9 witness: the parent-missing branch on the empty cache. -/
theorem cacheAddAccessTokenParentGateWitness :
    cacheAddAccessToken emptyCache 0 "a1" "r1" 10
      = (some .parentRefreshTokenNotFound, emptyCache) :=
  (cacheAddAccessTokenParentGate emptyCache 0 "a1" "r1" 10).1 rfl

/-- C5 amended: a missing record makes the redis backend's `IsTokenValid`
return false with no error (the `redis.Nil` reply is filtered), and makes
any other client failure propagate; the in-memory cache backend, however,
returns false together with the error `gocache.ErrItemNotFound`. -/
theorem isTokenValidNotFoundBehavior (s : CacheState) (now : Instant)
    (token id key msg : String)
    (hkey : cacheGetTokenKey token id = .ok key)
    (hmiss : s key = none) :
    cacheIsTokenValid s now token id = (false, some .itemNotFound)
    ∧ redisIsTokenValidFromGet (.error .nilReply) = (false, none)
    ∧ redisIsTokenValidFromGet (.error (.otherErr msg)) = (false, some (.redisOther msg)) := by
  refine ⟨?_, rfl, rfl⟩
  simp [cacheIsTokenValid, hkey, hmiss]

/-- C5 witness: the three behaviors at concrete inputs. -/
theorem isTokenValidNotFoundBehaviorWitness :
    cacheIsTokenValid emptyCache 3 refreshTokenStr "r9" = (false, some .itemNotFound)
    ∧ redisIsTokenValidFromGet (.error .nilReply) = (false, none)
    ∧ redisIsTokenValidFromGet (.error (.otherErr "conn refused"))
        = (false, some (.redisOther "conn refused")) :=
  isTokenValidNotFoundBehavior emptyCache 3 refreshTokenStr "r9" ("r9" ++ "." ++ "RT")
    "conn refused" rfl rfl

/-- C4 amended: on the in-memory cache and redis backends, an add that
stores the record makes an immediate `IsTokenValid` for that kind and id
return true with no error; for the cache backend's `AddAccessToken` this
requires the parent refresh record to be present and unexpired, since an
add against an expired stored parent returns success without storing. -/
theorem addThenValid (s : CacheState) (rs : RedisState) (now t : Instant)
    (id parentId : String) (item : TimedItem)
    (hlt : now < t)
    (hp : s (parentId ++ "." ++ "RT") = some item)
    (hl : timedItemHasExpired now item = false) :
    cacheIsTokenValid (cacheAddRefreshToken s id t).2 now refreshTokenStr id = (true, none)
    ∧ cacheIsTokenValid (cacheAddAccessToken s now id parentId t).2 now accessTokenStr id
        = (true, none)
    ∧ redisIsTokenValid (redisAddRefreshToken rs now id t).2 now refreshTokenStr id = (true, none)
    ∧ redisIsTokenValid (redisAddAccessToken rs now id parentId t).2 now accessTokenStr id
        = (true, none) := by
  have hnx : timedItemHasExpired now { value := CacheValue.boolVal true, expiresAt := t }
      = false := by
    simp [timedItemHasExpired]; exact hlt.le
  refine ⟨?_, ?_, ?_, ?_⟩
  · simp [cacheAddRefreshToken, cacheGetTokenKeyRefresh, cacheIsTokenValid,
      cacheSetKeySame, hnx]
  · have hne : (id ++ "." ++ "AT") ≠ (parentId ++ "." ++ "PRT") := cacheKeyNeAtPrt id parentId
    simp [cacheAddAccessToken, cacheGetTokenKeyRefresh, hp, hl, cacheGetTokenKeyAccess,
      cacheParentKeyEq, cacheIsTokenValid, cacheSetKeyOther _ _ _ _ hne, cacheSetKeySame, hnx]
  · simp [redisAddRefreshToken, redisGetKeyRefresh, redisIsTokenValid,
      redisIsTokenValidFromGet, redisGetCmd, redisSetKeySame, redisLive, boolToRedisArg,
      strconvParseBool, hlt]
  · simp [redisAddAccessToken, redisGetKeyAccess, redisParentKeyEq, redisIsTokenValid,
      redisIsTokenValidFromGet, redisGetCmd, redisSetKeySame, redisLive, boolToRedisArg,
      strconvParseBool, hlt]

/-- C4 witness: an unexpired parent refresh record at a concrete state. -/
theorem addThenValidWitness :
    cacheIsTokenValid (cacheAddRefreshToken c4CacheScenarioState "x1" 50).2 0
      refreshTokenStr "x1" = (true, none) :=
  (addThenValid c4CacheScenarioState emptyRedis 0 50 "x1" "r1"
    { value := .boolVal true, expiresAt := 5 } (by decide) (by decide) (by decide)).1

/-- Computation of a redis refresh revocation in a keyspace whose parent
link and access record are known: the target key is rewritten revoked
with its TTL restored, and then either the parent link is still live
(cascading to the access key, preserving its absolute expiry) or it has
expired and the `redis.Nil` reply surfaces as the error. -/
theorem redisRevokeRefreshCompute (RS : RedisState) (now2 t : Instant) (r a : String)
    (hprt : RS ("prt" ++ "." ++ r) = some { value := a, expiresAt := some t })
    (hAT : RS ("AT" ++ "." ++ a) = some { value := "1", expiresAt := some t }) :
    redisRevokeToken RS now2 refreshTokenStr r
      = if now2 < t then
          (none, redisSetKey (redisSetKey RS now2 ("RT" ++ "." ++ r) false
            (now2 + redisTTLCmd RS now2 ("RT" ++ "." ++ r))) now2 ("AT" ++ "." ++ a) false
            (now2 + (t - now2)))
        else
          (some .redisNil, redisSetKey RS now2 ("RT" ++ "." ++ r) false
            (now2 + redisTTLCmd RS now2 ("RT" ++ "." ++ r))) := by
  have hPrtRT : ("prt" ++ "." ++ r) ≠ ("RT" ++ "." ++ r) := redisKeyNePrtRt r r
  have hATRT : ("AT" ++ "." ++ a) ≠ ("RT" ++ "." ++ r) := fun h => redisKeyNeRtAt r a h.symm
  have hrne : ¬(refreshTokenStr = accessTokenStr) := by decide
  by_cases h2 : now2 < t
  · have hget1 : redisGetCmd (redisSetKey RS now2 ("RT" ++ "." ++ r) false
        (now2 + redisTTLCmd RS now2 ("RT" ++ "." ++ r))) now2 ("prt" ++ "." ++ r)
        = .ok a := by
      simp only [redisGetCmd, redisSetKeyOther _ _ _ _ _ _ hPrtRT, hprt, redisLive]
      simp [h2]
    have hget2 : redisTTLCmd (redisSetKey RS now2 ("RT" ++ "." ++ r) false
        (now2 + redisTTLCmd RS now2 ("RT" ++ "." ++ r))) now2 ("AT" ++ "." ++ a)
        = t - now2 := by
      simp only [redisTTLCmd, redisSetKeyOther _ _ _ _ _ _ hATRT, hAT, redisLive]
      simp [h2]
    simp only [redisRevokeToken, redisGetKeyRefresh, redisGetKeyAccess, redisParentKeyEq,
      if_neg hrne, hget1, hget2, if_pos h2]
  · have hget1 : redisGetCmd (redisSetKey RS now2 ("RT" ++ "." ++ r) false
        (now2 + redisTTLCmd RS now2 ("RT" ++ "." ++ r))) now2 ("prt" ++ "." ++ r)
        = .error .nilReply := by
      simp only [redisGetCmd, redisSetKeyOther _ _ _ _ _ _ hPrtRT, hprt, redisLive]
      simp [h2]
    simp only [redisRevokeToken, redisGetKeyRefresh, redisParentKeyEq,
      if_neg hrne, hget1, if_neg h2]
    rfl

/-- Computation of a cache `AddAccessToken` whose stored parent refresh
record is unexpired: the access record and the parent link are stored. -/
theorem cacheAddAccessCompute (s : CacheState) (now : Instant) (a r : String) (t : Instant)
    (item : TimedItem)
    (hparent : s (r ++ "." ++ "RT") = some item)
    (hlive : timedItemHasExpired now item = false) :
    cacheAddAccessToken s now a r t
      = (none, cacheSetKey (cacheSetKey s (a ++ "." ++ "AT")
          { value := .boolVal true, expiresAt := t }) (r ++ "." ++ "PRT")
          { value := .strVal a, expiresAt := t }) := by
  simp [cacheAddAccessToken, cacheGetTokenKeyRefresh, hparent, hlive,
    cacheGetTokenKeyAccess, cacheParentKeyEq]

/-- Computation of a cache refresh revocation in a state whose refresh
record, parent link and access record are known: both records are flipped
to false in place, each keeping its own expiry. -/
theorem cacheRevokeRefreshCompute (S : CacheState) (r a : String) (item : TimedItem)
    (t : Instant)
    (h1 : S (r ++ "." ++ "RT") = some item)
    (h2 : S (r ++ "." ++ "PRT") = some { value := .strVal a, expiresAt := t })
    (h3 : S (a ++ "." ++ "AT") = some { value := .boolVal true, expiresAt := t }) :
    cacheRevokeToken S refreshTokenStr r
      = (none, cacheSetKey (cacheSetKey S (r ++ "." ++ "RT")
          { value := .boolVal false, expiresAt := item.expiresAt }) (a ++ "." ++ "AT")
          { value := .boolVal false, expiresAt := t }) := by
  have hPRTRT : (r ++ "." ++ "PRT") ≠ (r ++ "." ++ "RT") := cacheKeyNePrtRtSame r
  have hAKRT : (a ++ "." ++ "AT") ≠ (r ++ "." ++ "RT") := fun h => cacheKeyNeRtAt r a h.symm
  have hrr : ¬(refreshTokenStr ≠ refreshTokenStr) := by simp
  have hq1 : cacheSetKey S (r ++ "." ++ "RT")
      { value := CacheValue.boolVal false, expiresAt := item.expiresAt } (r ++ "." ++ "PRT")
      = some { value := CacheValue.strVal a, expiresAt := t } := by
    rw [cacheSetKeyOther _ _ _ _ hPRTRT, h2]
  have hq2 : cacheSetKey S (r ++ "." ++ "RT")
      { value := CacheValue.boolVal false, expiresAt := item.expiresAt } (a ++ "." ++ "AT")
      = some { value := CacheValue.boolVal true, expiresAt := t } := by
    rw [cacheSetKeyOther _ _ _ _ hAKRT, h3]
  simp only [cacheRevokeToken, cacheGetTokenKeyRefresh, h1, cacheParentKeyEq, hq1,
    cacheGetTokenKeyAccess, hq2, if_neg hrr]

/-- C3 amended: after `AddAccessToken(a, r, t)` with a future expiry and
then a successful `RevokeToken(Refresh, r)`, `IsTokenValid(Access, a)`
returns false — on the redis backend from any prior keyspace, and on the
in-memory cache backend provided the stored parent refresh record r was
present and unexpired when the access token was added (an add against an
expired stored parent succeeds without storing, which is what the
counterexample exploits). -/
theorem cascadeRevokeInvalidatesAccess (s : CacheState) (rs : RedisState)
    (now now2 now3 : Instant) (r a : String) (t : Instant) (item : TimedItem)
    (hparent : s (r ++ "." ++ "RT") = some item)
    (hlive : timedItemHasExpired now item = false)
    (ht : now < t)
    (hrv : (redisRevokeToken (redisAddAccessToken rs now a r t).2 now2 refreshTokenStr r).1
      = none) :
    (cacheIsTokenValid
      (cacheRevokeToken (cacheAddAccessToken s now a r t).2 refreshTokenStr r).2
      now3 accessTokenStr a).1 = false
    ∧ (redisIsTokenValid
        (redisRevokeToken (redisAddAccessToken rs now a r t).2 now2 refreshTokenStr r).2
        now3 accessTokenStr a).1 = false := by
  constructor
  · -- the in-memory cache backend
    have hPRTRT : (r ++ "." ++ "PRT") ≠ (r ++ "." ++ "RT") := cacheKeyNePrtRtSame r
    have hAKRT : (a ++ "." ++ "AT") ≠ (r ++ "." ++ "RT") := fun h => cacheKeyNeRtAt r a h.symm
    have hAKPRT : (a ++ "." ++ "AT") ≠ (r ++ "." ++ "PRT") := cacheKeyNeAtPrt a r
    rw [cacheAddAccessCompute s now a r t item hparent hlive]
    have h1 : cacheSetKey (cacheSetKey s (a ++ "." ++ "AT")
        { value := CacheValue.boolVal true, expiresAt := t }) (r ++ "." ++ "PRT")
        { value := CacheValue.strVal a, expiresAt := t } (r ++ "." ++ "RT") = some item := by
      rw [cacheSetKeyOther _ _ _ _ (Ne.symm hPRTRT), cacheSetKeyOther _ _ _ _ (Ne.symm hAKRT),
        hparent]
    have h2 : cacheSetKey (cacheSetKey s (a ++ "." ++ "AT")
        { value := CacheValue.boolVal true, expiresAt := t }) (r ++ "." ++ "PRT")
        { value := CacheValue.strVal a, expiresAt := t } (r ++ "." ++ "PRT")
        = some { value := CacheValue.strVal a, expiresAt := t } := cacheSetKeySame _ _ _
    have h3 : cacheSetKey (cacheSetKey s (a ++ "." ++ "AT")
        { value := CacheValue.boolVal true, expiresAt := t }) (r ++ "." ++ "PRT")
        { value := CacheValue.strVal a, expiresAt := t } (a ++ "." ++ "AT")
        = some { value := CacheValue.boolVal true, expiresAt := t } := by
      rw [cacheSetKeyOther _ _ _ _ hAKPRT, cacheSetKeySame]
    rw [show ((none : Option RepoErr), cacheSetKey (cacheSetKey s (a ++ "." ++ "AT")
        { value := CacheValue.boolVal true, expiresAt := t }) (r ++ "." ++ "PRT")
        { value := CacheValue.strVal a, expiresAt := t }).2
        = cacheSetKey (cacheSetKey s (a ++ "." ++ "AT")
        { value := CacheValue.boolVal true, expiresAt := t }) (r ++ "." ++ "PRT")
        { value := CacheValue.strVal a, expiresAt := t } from rfl]
    rw [cacheRevokeRefreshCompute _ r a item t h1 h2 h3]
    simp [cacheIsTokenValid, cacheGetTokenKeyAccess, cacheSetKeySame, apply_ite]
  · -- the redis backend
    have hPrtAT : ("prt" ++ "." ++ r) ≠ ("AT" ++ "." ++ a) := redisKeyNePrtAt r a
    have htne : t - now ≠ 0 := sub_ne_zero.mpr (ne_of_gt ht)
    have harith : now + (t - now) = t := by ring
    have hS : (redisAddAccessToken rs now a r t).2
        = redisSetKey (redisSetCmd rs now ("prt" ++ "." ++ r) a (t - now)) now
            ("AT" ++ "." ++ a) true t := by
      simp [redisAddAccessToken, redisGetKeyAccess, redisParentKeyEq]
    rw [hS] at hrv ⊢
    have hprt : redisSetKey (redisSetCmd rs now ("prt" ++ "." ++ r) a (t - now)) now
        ("AT" ++ "." ++ a) true t ("prt" ++ "." ++ r)
        = some { value := a, expiresAt := some t } := by
      rw [redisSetKeyOther _ _ _ _ _ _ hPrtAT]
      simp [redisSetCmd, redisWrite, htne, harith]
    have hAT : redisSetKey (redisSetCmd rs now ("prt" ++ "." ++ r) a (t - now)) now
        ("AT" ++ "." ++ a) true t ("AT" ++ "." ++ a)
        = some { value := "1", expiresAt := some t } := by
      rw [redisSetKeySame]
      simp [boolToRedisArg]
    rw [redisRevokeRefreshCompute _ now2 t r a hprt hAT] at hrv ⊢
    by_cases h2 : now2 < t
    · rw [if_pos h2]
      rcases lt_or_ge now3 t with h3 | h3
      · simp [redisIsTokenValid, redisGetKeyAccess, redisIsTokenValidFromGet, redisGetCmd,
          redisSetKeySame, redisLive, strconvParseBool, boolToRedisArg, h3]
      · have hn : ¬(now3 < t) := not_lt.mpr h3
        simp [redisIsTokenValid, redisGetKeyAccess, redisIsTokenValidFromGet, redisGetCmd,
          redisSetKeySame, redisLive, strconvParseBool, boolToRedisArg, hn]
    · rw [if_neg h2] at hrv
      simp at hrv

/-- C3 witness: a concrete run with an unexpired parent on both
backends. -/
theorem cascadeRevokeInvalidatesAccessWitness :
    (cacheIsTokenValid
      (cacheRevokeToken (cacheAddAccessToken c4CacheScenarioState 0 "a1" "r1" 100).2
        refreshTokenStr "r1").2 2 accessTokenStr "a1").1 = false :=
  (cascadeRevokeInvalidatesAccess c4CacheScenarioState emptyRedis 0 1 2 "r1" "a1" 100
    { value := .boolVal true, expiresAt := 5 } (by decide) (by decide) (by decide)
    (by decide)).1

/-- C7 amended: key derivation is pure and injective on dot-free ids, but
the two backends lay keys out as mirror images: the cache backend derives
`id.RT`, `id.AT` and parent link `id.PRT`, while the redis backend derives
`RT.id`, `AT.id` and parent link `prt.id`. -/
theorem keyDerivationLayout (id id2 : String)
    (hd : ('.' : Char) ∉ id.data) (hd2 : ('.' : Char) ∉ id2.data) :
    cacheGetTokenKey refreshTokenStr id = .ok (id ++ "." ++ "RT")
    ∧ cacheGetTokenKey accessTokenStr id = .ok (id ++ "." ++ "AT")
    ∧ cacheGetParentRefreshTokenKey id = id ++ "." ++ "PRT"
    ∧ redisGetKey refreshTokenStr id = .ok ("RT" ++ "." ++ id)
    ∧ redisGetKey accessTokenStr id = .ok ("AT" ++ "." ++ id)
    ∧ redisGetParentRefreshTokenKey id = "prt" ++ "." ++ id
    ∧ (cacheGetTokenKey refreshTokenStr id = cacheGetTokenKey refreshTokenStr id2 → id = id2)
    ∧ (cacheGetTokenKey accessTokenStr id = cacheGetTokenKey accessTokenStr id2 → id = id2)
    ∧ cacheGetTokenKey refreshTokenStr id ≠ cacheGetTokenKey accessTokenStr id2
    ∧ (redisGetKey refreshTokenStr id = redisGetKey refreshTokenStr id2 → id = id2)
    ∧ (redisGetKey accessTokenStr id = redisGetKey accessTokenStr id2 → id = id2)
    ∧ redisGetKey refreshTokenStr id ≠ redisGetKey accessTokenStr id2 := by
  refine ⟨rfl, rfl, rfl, rfl, rfl, rfl, ?_, ?_, ?_, ?_, ?_, ?_⟩
  · intro h
    rw [cacheGetTokenKeyRefresh, cacheGetTokenKeyRefresh] at h
    exact stringAppendRightCancel (stringAppendRightCancel (Except.ok.inj h))
  · intro h
    rw [cacheGetTokenKeyAccess, cacheGetTokenKeyAccess] at h
    exact stringAppendRightCancel (stringAppendRightCancel (Except.ok.inj h))
  · intro h
    rw [cacheGetTokenKeyRefresh, cacheGetTokenKeyAccess] at h
    exact cacheKeyNeRtAt id id2 (Except.ok.inj h)
  · intro h
    rw [redisGetKeyRefresh, redisGetKeyRefresh] at h
    exact stringAppendLeftCancel (Except.ok.inj h)
  · intro h
    rw [redisGetKeyAccess, redisGetKeyAccess] at h
    exact stringAppendLeftCancel (Except.ok.inj h)
  · intro h
    rw [redisGetKeyRefresh, redisGetKeyAccess] at h
    exact redisKeyNeRtAt id id2 (Except.ok.inj h)

/-- C7 witness: a dot-free id with its derived cache key. -/
theorem keyDerivationLayoutWitness :
    (('.' : Char) ∉ ("r1" : String).data)
    ∧ cacheGetTokenKey refreshTokenStr "r1" = .ok ("r1" ++ "." ++ "RT") :=
  ⟨by decide, (keyDerivationLayout "r1" "a2" (by decide) (by decide)).1⟩

/-- A cache write that replaces a stored item with one of the same expiry
preserves the expiry of every binding. -/
theorem mapExpirySetPreserve (s : CacheState) (k : String) (item old : TimedItem)
    (hold : s k = some old) (he : item.expiresAt = old.expiresAt) (k2 : String) :
    Option.map TimedItem.expiresAt (cacheSetKey s k item k2)
      = Option.map TimedItem.expiresAt (s k2) := by
  by_cases h : k2 = k
  · subst h; rw [cacheSetKeySame, hold]; simp [he]
  · rw [cacheSetKeyOther _ _ _ _ h]

/-- A successful cache key derivation names one of the two kinds. -/
theorem cacheGetTokenKeyOkCases (token id key : String)
    (h : cacheGetTokenKey token id = .ok key) :
    (token = refreshTokenStr ∧ key = id ++ "." ++ "RT")
    ∨ (token = accessTokenStr ∧ key = id ++ "." ++ "AT") := by
  by_cases h1 : token = refreshTokenStr
  · subst h1; rw [cacheGetTokenKeyRefresh] at h; exact Or.inl ⟨rfl, (Except.ok.inj h).symm⟩
  · by_cases h2 : token = accessTokenStr
    · subst h2; rw [cacheGetTokenKeyAccess] at h; exact Or.inr ⟨rfl, (Except.ok.inj h).symm⟩
    · simp [cacheGetTokenKey, tokenAbbreviation, h1, h2] at h

/-- A successful redis key derivation names one of the two kinds. -/
theorem redisGetKeyOkCases (token id key : String)
    (h : redisGetKey token id = .ok key) :
    (token = refreshTokenStr ∧ key = "RT" ++ "." ++ id)
    ∨ (token = accessTokenStr ∧ key = "AT" ++ "." ++ id) := by
  by_cases h1 : token = refreshTokenStr
  · subst h1; rw [redisGetKeyRefresh] at h; exact Or.inl ⟨rfl, (Except.ok.inj h).symm⟩
  · by_cases h2 : token = accessTokenStr
    · subst h2; rw [redisGetKeyAccess] at h; exact Or.inr ⟨rfl, (Except.ok.inj h).symm⟩
    · simp [redisGetKey, tokenAbbreviation, h1, h2] at h

/-- The reply of a redis read depends only on the read key's binding. -/
theorem redisGetCmdCongr (s1 s2 : RedisState) (now : Instant) (k : String)
    (h : s1 k = s2 k) : redisGetCmd s1 now k = redisGetCmd s2 now k := by
  unfold redisGetCmd; rw [h]

/-- The reply of a redis TTL read depends only on the read key's binding. -/
theorem redisTTLCmdCongr (s1 s2 : RedisState) (now : Instant) (k : String)
    (h : s1 k = s2 k) : redisTTLCmd s1 now k = redisTTLCmd s2 now k := by
  unfold redisTTLCmd; rw [h]

/-- Pointwise effect of a cache revocation: every binding is either
untouched or flipped to false in place with its expiry kept. -/
theorem c8CacheFlip (s : CacheState) (token id k : String) :
    (cacheRevokeToken s token id).2 k = s k
    ∨ ∃ it, s k = some it ∧ (cacheRevokeToken s token id).2 k
        = some { value := .boolVal false, expiresAt := it.expiresAt } := by
  rcases hk : cacheGetTokenKey token id with e | key
  · left; simp [cacheRevokeToken, hk]
  rcases hsk : s key with _ | item
  · left; simp [cacheRevokeToken, hk, hsk]
  have hflip : ∀ k2, cacheSetKey s key
        { value := .boolVal false, expiresAt := item.expiresAt } k2 = s k2
      ∨ ∃ it, s k2 = some it ∧ cacheSetKey s key
          { value := .boolVal false, expiresAt := item.expiresAt } k2
          = some { value := .boolVal false, expiresAt := it.expiresAt } := by
    intro k2
    by_cases h : k2 = key
    · subst h; right; exact ⟨item, hsk, by rw [cacheSetKeySame]⟩
    · left; exact cacheSetKeyOther _ _ _ _ h
  by_cases htok : token ≠ refreshTokenStr
  · simp only [cacheRevokeToken, hk, hsk, if_pos htok]
    exact hflip k
  push_neg at htok; subst htok
  obtain ⟨-, hkey⟩ := (cacheGetTokenKeyOkCases _ _ _ hk).resolve_right
    (fun hx => absurd hx.1 (by decide))
  subst hkey
  have hrr : ¬(refreshTokenStr ≠ refreshTokenStr) := fun h => h rfl
  have hprtne : (id ++ "." ++ "PRT") ≠ (id ++ "." ++ "RT") := cacheKeyNePrtRtSame id
  have hs1p : cacheSetKey s (id ++ "." ++ "RT")
      { value := .boolVal false, expiresAt := item.expiresAt } (id ++ "." ++ "PRT")
      = s (id ++ "." ++ "PRT") := cacheSetKeyOther _ _ _ _ hprtne
  rcases hpk : s (id ++ "." ++ "PRT") with _ | pItem
  · simp only [cacheRevokeToken, hk, hsk, if_neg hrr, cacheParentKeyEq, hs1p, hpk]
    exact hflip k
  rcases hpv : pItem.value with b | aid
  · simp only [cacheRevokeToken, hk, hsk, if_neg hrr, cacheParentKeyEq, hs1p, hpk, hpv]
    exact hflip k
  rcases has1 : cacheSetKey s (id ++ "." ++ "RT")
      { value := .boolVal false, expiresAt := item.expiresAt } (aid ++ "." ++ "AT")
      with _ | aitem
  · simp only [cacheRevokeToken, hk, hsk, if_neg hrr, cacheParentKeyEq, hs1p, hpk, hpv,
      cacheGetTokenKeyAccess, has1]
    exact hflip k
  · simp only [cacheRevokeToken, hk, hsk, if_neg hrr, cacheParentKeyEq, hs1p, hpk, hpv,
      cacheGetTokenKeyAccess, has1]
    by_cases hka : k = aid ++ "." ++ "AT"
    · subst hka
      right
      rcases hflip (aid ++ "." ++ "AT") with hu | ⟨it, hit, hflipAt⟩
      · refine ⟨aitem, ?_, by rw [cacheSetKeySame]⟩
        rw [← hu]; exact has1
      · have haeq : aitem = { value := .boolVal false, expiresAt := it.expiresAt } := by
          rw [has1] at hflipAt
          exact Option.some.inj hflipAt
        refine ⟨it, hit, ?_⟩
        rw [cacheSetKeySame, haeq]
    · rw [cacheSetKeyOther _ _ _ _ hka]
      exact hflip k

/-- A cache revocation leaves every key other than the target and the
cascaded access key untouched. -/
theorem c8CacheFrame (s : CacheState) (token id k : String)
    (h1 : cacheGetTokenKey token id ≠ .ok k)
    (h2 : ∀ aid, cacheCascadeAccessId s id = some aid →
        cacheGetTokenKey accessTokenStr aid ≠ .ok k) :
    (cacheRevokeToken s token id).2 k = s k := by
  rcases hk : cacheGetTokenKey token id with e | key
  · simp [cacheRevokeToken, hk]
  rcases hsk : s key with _ | item
  · simp [cacheRevokeToken, hk, hsk]
  have hknk : k ≠ key := fun h => h1 (by rw [h]; exact hk)
  have hs1k : cacheSetKey s key
      { value := .boolVal false, expiresAt := item.expiresAt } k = s k :=
    cacheSetKeyOther _ _ _ _ hknk
  by_cases htok : token ≠ refreshTokenStr
  · simp only [cacheRevokeToken, hk, hsk, if_pos htok]
    exact hs1k
  push_neg at htok; subst htok
  obtain ⟨-, hkey⟩ := (cacheGetTokenKeyOkCases _ _ _ hk).resolve_right
    (fun hx => absurd hx.1 (by decide))
  subst hkey
  have hrr : ¬(refreshTokenStr ≠ refreshTokenStr) := fun h => h rfl
  have hprtne : (id ++ "." ++ "PRT") ≠ (id ++ "." ++ "RT") := cacheKeyNePrtRtSame id
  have hs1p : cacheSetKey s (id ++ "." ++ "RT")
      { value := .boolVal false, expiresAt := item.expiresAt } (id ++ "." ++ "PRT")
      = s (id ++ "." ++ "PRT") := cacheSetKeyOther _ _ _ _ hprtne
  rcases hpk : s (id ++ "." ++ "PRT") with _ | pItem
  · simp only [cacheRevokeToken, hk, hsk, if_neg hrr, cacheParentKeyEq, hs1p, hpk]
    exact hs1k
  rcases hpv : pItem.value with b | aid
  · simp only [cacheRevokeToken, hk, hsk, if_neg hrr, cacheParentKeyEq, hs1p, hpk, hpv]
    exact hs1k
  have hcasc : cacheCascadeAccessId s id = some aid := by
    simp [cacheCascadeAccessId, cacheParentKeyEq, hpk, hpv]
  have hka : k ≠ aid ++ "." ++ "AT" := fun h =>
    h2 aid hcasc (by rw [h]; exact cacheGetTokenKeyAccess aid)
  rcases has1 : cacheSetKey s (id ++ "." ++ "RT")
      { value := .boolVal false, expiresAt := item.expiresAt } (aid ++ "." ++ "AT")
      with _ | aitem
  · simp only [cacheRevokeToken, hk, hsk, if_neg hrr, cacheParentKeyEq, hs1p, hpk, hpv,
      cacheGetTokenKeyAccess, has1]
    exact hs1k
  · simp only [cacheRevokeToken, hk, hsk, if_neg hrr, cacheParentKeyEq, hs1p, hpk, hpv,
      cacheGetTokenKeyAccess, has1]
    rw [cacheSetKeyOther _ _ _ _ hka]
    exact hs1k

/-- Reading the cascade access id succeeds exactly when the parent link
key is live, and then the revocation's own read returns the same id. -/
theorem redisCascadeAccessIdOk (s : RedisState) (now : Instant) (id aid : String)
    (h : redisCascadeAccessId s now id = some aid) :
    redisGetCmd s now ("prt" ++ "." ++ id) = .ok aid := by
  unfold redisCascadeAccessId at h
  rw [redisParentKeyEq] at h
  revert h
  cases hq : redisGetCmd s now ("prt" ++ "." ++ id) with
  | error e2 => intro h; simp at h
  | ok aid2 =>
    intro h
    have haa : aid2 = aid := Option.some.inj h
    rw [haa]

/-- The converse direction: a successful parent-link read yields the
cascade access id. -/
theorem redisCascadeAccessIdIntro (s : RedisState) (now : Instant) (id aid : String)
    (h : redisGetCmd s now ("prt" ++ "." ++ id) = .ok aid) :
    redisCascadeAccessId s now id = some aid := by
  unfold redisCascadeAccessId
  rw [redisParentKeyEq, h]

/-- A redis revocation leaves every key other than the target and the
cascaded access key untouched. -/
theorem c8RedisFrame (rs : RedisState) (now : Instant) (token id k : String)
    (h1 : redisGetKey token id ≠ .ok k)
    (h2 : ∀ aid, redisCascadeAccessId rs now id = some aid →
        redisGetKey accessTokenStr aid ≠ .ok k) :
    (redisRevokeToken rs now token id).2 k = rs k := by
  rcases hk : redisGetKey token id with e | key
  · simp [redisRevokeToken, hk]
  have hknk : k ≠ key := fun h => h1 (by rw [h]; exact hk)
  have hs1k : redisSetKey rs now key false (now + redisTTLCmd rs now key) k = rs k :=
    redisSetKeyOther _ _ _ _ _ _ hknk
  by_cases htok : token = accessTokenStr
  · simp only [redisRevokeToken, hk, if_pos htok]
    exact hs1k
  obtain ⟨htokr, hkey⟩ := (redisGetKeyOkCases _ _ _ hk).resolve_right
    (fun hx => htok hx.1)
  subst hkey
  have hprtne : ("prt" ++ "." ++ id) ≠ ("RT" ++ "." ++ id) := redisKeyNePrtRt id id
  have hgetc : redisGetCmd (redisSetKey rs now ("RT" ++ "." ++ id) false
      (now + redisTTLCmd rs now ("RT" ++ "." ++ id))) now ("prt" ++ "." ++ id)
      = redisGetCmd rs now ("prt" ++ "." ++ id) :=
    redisGetCmdCongr _ _ _ _ (redisSetKeyOther _ _ _ _ _ _ hprtne)
  rcases hg : redisGetCmd rs now ("prt" ++ "." ++ id) with e2 | aid
  · simp only [redisRevokeToken, hk, if_neg htok, redisParentKeyEq, hgetc, hg]
    exact hs1k
  · have hcasc : redisCascadeAccessId rs now id = some aid :=
      redisCascadeAccessIdIntro rs now id aid hg
    have hka : k ≠ ("AT" ++ "." ++ aid) := fun h =>
      h2 aid hcasc (by rw [h]; exact redisGetKeyAccess aid)
    simp only [redisRevokeToken, hk, if_neg htok, redisParentKeyEq, hgetc, hg,
      redisGetKeyAccess]
    rw [redisSetKeyOther _ _ _ _ _ _ hka]
    exact hs1k

/-- A redis revocation rewrites a live target record to the revoked value
while restoring its absolute expiry exactly. -/
theorem c8RedisTarget (rs : RedisState) (now : Instant) (token id k : String)
    (v : RedisVal) (e : Instant)
    (hk : redisGetKey token id = .ok k) (hv : rs k = some v)
    (hve : v.expiresAt = some e) (hlv : redisLive now v = true) :
    (redisRevokeToken rs now token id).2 k
      = some { value := boolToRedisArg false, expiresAt := some e } := by
  have httl : redisTTLCmd rs now k = e - now := by
    simp [redisTTLCmd, hv, hlv, hve]
  have harith : now + (e - now) = e := by ring
  rcases redisGetKeyOkCases _ _ _ hk with ⟨htok, hkey⟩ | ⟨htok, hkey⟩
  · subst htok; subst hkey
    have hne : ¬(refreshTokenStr = accessTokenStr) := by decide
    have hgetc : redisGetCmd (redisSetKey rs now ("RT" ++ "." ++ id) false
        (now + redisTTLCmd rs now ("RT" ++ "." ++ id))) now ("prt" ++ "." ++ id)
        = redisGetCmd rs now ("prt" ++ "." ++ id) :=
      redisGetCmdCongr _ _ _ _ (redisSetKeyOther _ _ _ _ _ _ (redisKeyNePrtRt id id))
    rcases hg : redisGetCmd rs now ("prt" ++ "." ++ id) with e2 | aid
    · simp only [redisRevokeToken, redisGetKeyRefresh, if_neg hne, redisParentKeyEq,
        hgetc, hg]
      simp only [httl, harith]
      rw [redisSetKeySame]
    · have hka : ("RT" ++ "." ++ id) ≠ ("AT" ++ "." ++ aid) := redisKeyNeRtAt id aid
      simp only [redisRevokeToken, redisGetKeyRefresh, if_neg hne, redisParentKeyEq,
        hgetc, hg, redisGetKeyAccess]
      simp only [httl, harith]
      rw [redisSetKeyOther _ _ _ _ _ _ hka, redisSetKeySame]
  · subst htok; subst hkey
    simp only [redisRevokeToken, redisGetKeyAccess]
    rw [httl, harith]
    simp [redisSetKeySame]

/-- A redis refresh revocation rewrites the live cascaded access record
to the revoked value while restoring its absolute expiry exactly. -/
theorem c8RedisCascade (rs : RedisState) (now : Instant) (id aid ak : String)
    (v : RedisVal) (e : Instant)
    (hcasc : redisCascadeAccessId rs now id = some aid)
    (hak : redisGetKey accessTokenStr aid = .ok ak)
    (hv : rs ak = some v) (hve : v.expiresAt = some e) (hlv : redisLive now v = true) :
    (redisRevokeToken rs now refreshTokenStr id).2 ak
      = some { value := boolToRedisArg false, expiresAt := some e } := by
  have hakeq : ak = "AT" ++ "." ++ aid := by
    rw [redisGetKeyAccess] at hak; exact (Except.ok.inj hak).symm
  subst hakeq
  have hne : ¬(refreshTokenStr = accessTokenStr) := by decide
  have hne1 : ("prt" ++ "." ++ id) ≠ ("RT" ++ "." ++ id) := redisKeyNePrtRt id id
  have hne2 : ("AT" ++ "." ++ aid) ≠ ("RT" ++ "." ++ id) := fun h =>
    redisKeyNeRtAt id aid h.symm
  have hget : redisGetCmd (redisSetKey rs now ("RT" ++ "." ++ id) false
      (now + redisTTLCmd rs now ("RT" ++ "." ++ id))) now ("prt" ++ "." ++ id)
      = .ok aid := by
    rw [redisGetCmdCongr _ rs _ _ (redisSetKeyOther _ _ _ _ _ _ hne1)]
    exact redisCascadeAccessIdOk rs now id aid hcasc
  have httl : redisTTLCmd (redisSetKey rs now ("RT" ++ "." ++ id) false
      (now + redisTTLCmd rs now ("RT" ++ "." ++ id))) now ("AT" ++ "." ++ aid)
      = e - now := by
    rw [redisTTLCmdCongr _ rs _ _ (redisSetKeyOther _ _ _ _ _ _ hne2)]
    unfold redisTTLCmd
    rw [hv]
    simp [hlv, hve]
  have harith : now + (e - now) = e := by ring
  simp only [redisRevokeToken, redisGetKeyRefresh, if_neg hne, redisParentKeyEq, hget,
    redisGetKeyAccess]
  simp only [httl, harith]
  rw [redisSetKeySame]

/-- C8: on the in-memory cache and redis backends, `RevokeToken` changes
only the live flag of the targeted record and, for a refresh token, of
its cascaded access record: every cache binding is either untouched or
flipped to false in place with its expiry kept (so all expiries are
preserved), keys other than the target and the cascade target are never
modified on either backend, and on redis a live target or cascaded access
record is rewritten to the revoked value with exactly its previous
absolute expiry. -/
theorem revokePreservesExpiryAndFrame :
    (∀ (s : CacheState) (token id k : String),
        Option.map TimedItem.expiresAt ((cacheRevokeToken s token id).2 k)
          = Option.map TimedItem.expiresAt (s k))
    ∧ (∀ (s : CacheState) (token id k : String),
        (cacheRevokeToken s token id).2 k = s k
        ∨ ∃ it, s k = some it ∧ (cacheRevokeToken s token id).2 k
            = some { value := .boolVal false, expiresAt := it.expiresAt })
    ∧ (∀ (s : CacheState) (token id k : String),
        cacheGetTokenKey token id ≠ .ok k →
        (∀ aid, cacheCascadeAccessId s id = some aid →
            cacheGetTokenKey accessTokenStr aid ≠ .ok k) →
        (cacheRevokeToken s token id).2 k = s k)
    ∧ (∀ (rs : RedisState) (now : Instant) (token id k : String),
        redisGetKey token id ≠ .ok k →
        (∀ aid, redisCascadeAccessId rs now id = some aid →
            redisGetKey accessTokenStr aid ≠ .ok k) →
        (redisRevokeToken rs now token id).2 k = rs k)
    ∧ (∀ (rs : RedisState) (now : Instant) (token id k : String) (v : RedisVal)
        (e : Instant),
        redisGetKey token id = .ok k → rs k = some v → v.expiresAt = some e →
        redisLive now v = true →
        (redisRevokeToken rs now token id).2 k
          = some { value := boolToRedisArg false, expiresAt := some e })
    ∧ (∀ (rs : RedisState) (now : Instant) (id aid ak : String) (v : RedisVal)
        (e : Instant),
        redisCascadeAccessId rs now id = some aid →
        redisGetKey accessTokenStr aid = .ok ak →
        rs ak = some v → v.expiresAt = some e → redisLive now v = true →
        (redisRevokeToken rs now refreshTokenStr id).2 ak
          = some { value := boolToRedisArg false, expiresAt := some e }) := by
  refine ⟨?_, c8CacheFlip, c8CacheFrame, c8RedisFrame, c8RedisTarget, c8RedisCascade⟩
  intro s token id k
  rcases c8CacheFlip s token id k with h | ⟨it, hit, hflip⟩
  · rw [h]
  · rw [hflip, hit]; rfl

/-- C8 witness: expiry preservation at a concrete state and key. -/
theorem revokePreservesExpiryAndFrameWitness :
    Option.map TimedItem.expiresAt
      ((cacheRevokeToken emptyCache refreshTokenStr "r1").2 "k1")
      = Option.map TimedItem.expiresAt (emptyCache "k1") :=
  revokePreservesExpiryAndFrame.1 emptyCache refreshTokenStr "r1" "k1"
